import Mathlib

/-!
# Mentorix — verification of the spec against the code

The repository under verification is a multi-tenant RAG (retrieval-augmented
generation) SaaS.  The checked-in sources are the Next.js frontend (chat
widget, admin UI and its API client) plus deployment scripts; the backend
core (chunker, vector store, usage ledger, ingestion pipeline, chat core) is
described by the spec but its code is not part of this repository snapshot.

Accordingly:
* frontend behaviour (the `apiFetch` client, the `ChatWindow` send loop, the
  `ChatResponse` / `Document` shapes) is embedded directly from the
  TypeScript sources;
* backend components are modelled from the spec (each such definition's doc
  comment starts with `Modelled from the spec:`).

Strings manipulated by the embedded code are represented as `String` when
only equality matters and as `List Char` where character-level structure
matters (the chunker).  JavaScript `trim` is modelled explicitly since the
builtin `String.trim` does not reduce in the kernel.
-/

/- ### 1. Chunker (spec §4.2) -/

/-- Modelled from the spec: the chunker is not in the repository snapshot.
`chunk(text, size, overlap)` splits `text` into segments of exactly `size`
characters stepping by `size - overlap`, so consecutive chunks share an
`overlap`-sized region; a final segment of at most `size` characters ends the
list; empty text yields no chunks.  The unit is characters.  The degenerate
parameter regime `size ≤ overlap` (never used: defaults are 800/150) returns
the whole text as one chunk so the function is total. -/
def chunk (size overlap : Nat) (s : List Char) : List (List Char) :=
  if s.isEmpty then []
  else if s.length ≤ size ∨ size ≤ overlap then [s]
  else s.take size :: chunk size overlap (s.drop (size - overlap))
termination_by s.length
decreasing_by
  simp only [List.length_drop]
  omega

/-- Concatenation of a chunk list with the leading `overlap` characters of
every chunk but the first removed — the "remove the shared overlap region"
reading of the round-trip property. -/
def reconstruct (overlap : Nat) : List (List Char) → List Char
  | [] => []
  | c :: cs => c ++ (cs.map (fun d => d.drop overlap)).flatten

/- ### 2. Vector store / similarity search (spec §4.5) -/

/-- A persisted chunk row: the data-model attributes of `Chunk` (spec §3)
that the vector store queries.  Embeddings are rational vectors (the spec's
float vectors abstracted over an exact numeric type). -/
structure StoredChunk where
  tenant_id : String
  document_id : String
  position : Nat
  text : List Char
  embedding : List ℚ
deriving DecidableEq

/-- Modelled from the spec: the vector store is not in the repository
snapshot.  `search(tenant_id, query_vector, top_k)` filters the stored rows
to the given tenant *inside the store itself*, orders them by ascending
distance (cosine distance in the real system; abstracted here as a score
function `dist`, since cosine over floats has no exact rational form — no
claim depends on the metric), breaks ties by insertion order via a stable
insertion sort, and returns the first `top_k`.  The store contents `store`
are an arbitrary list, covering every interleaving of concurrent ingestion
across tenants. -/
def search (dist : List ℚ → List ℚ → ℚ) (store : List StoredChunk)
    (tenant_id : String) (query_vector : List ℚ) (top_k : Nat) : List StoredChunk :=
  ((store.filter (fun c => c.tenant_id == tenant_id)).insertionSort
    (fun a b => dist query_vector a.embedding ≤ dist query_vector b.embedding)).take top_k

/-- A degenerate score function for concrete witnesses. -/
def demoDist : List ℚ → List ℚ → ℚ := fun _ _ => 0

/-- A two-tenant store for concrete witnesses. -/
def demoStore : List StoredChunk :=
  [⟨"tenant-A", "doc-1", 0, ['a'], [1]⟩, ⟨"tenant-B", "doc-2", 0, ['b'], [1]⟩]

/- ### 3. Usage/quota ledger (spec §4.7) -/

/-- Outcome of one reservation attempt. -/
inductive ReserveResult where
  | allowed
  | quotaExceeded
deriving DecidableEq

/-- Modelled from the spec: the usage ledger is not in the repository
snapshot.  `check_and_reserve(tenant_id, estimated_tokens)` is a single
atomic read-modify-write on the tenant's counter: it passes exactly when the
estimate still fits under the limit, incrementing the counter in the same
atomic step.  The tenant's counters are modelled as one period counter
`used` against its `limit` (day/month rollover is orthogonal to the race
claim).  Returns (allowed, new counter value). -/
def check_and_reserve (limit used estimated_tokens : Nat) : Bool × Nat :=
  if used + estimated_tokens ≤ limit then (true, used + estimated_tokens) else (false, used)

/-- Modelled from the spec: a run of several chat requests against one
tenant's ledger.  Because each `check_and_reserve` is one atomic
read-modify-write, every interleaving of concurrent requests is equivalent
to executing them in some serial order; `runLedger` is that serial
execution. -/
def runLedger (limit : Nat) : Nat → List Nat → List ReserveResult
  | _, [] => []
  | used, est :: rest =>
    match check_and_reserve limit used est with
    | (true, used') => ReserveResult.allowed :: runLedger limit used' rest
    | (false, used') => ReserveResult.quotaExceeded :: runLedger limit used' rest

/- ### 4. Ingestion pipeline status machine (spec §4.6) -/

/-- Document status, from the frontend `Document` interface
(`status: 'pending' | 'processing' | 'done' | 'error'`) and the
`STATUS_CONFIG` table of the documents page. -/
inductive DocumentStatus where
  | pending
  | processing
  | done
  | error
deriving DecidableEq, Fintype

/-- Modelled from the spec: the ingestion worker is not in the repository
snapshot.  The only transitions the pipeline ever takes:
`pending → processing` (atomic worker claim), `processing → done`,
`processing → error`. -/
def statusStep : DocumentStatus → DocumentStatus → Bool
  | .pending, .processing => true
  | .processing, .done => true
  | .processing, .error => true
  | _, _ => false

/- ### 5. Chat core intake guard (spec §6, §4.7) -/

/-- Chat-path failure taxonomy (the cases the intake claims mention). -/
inductive ChatErr where
  | QuestionTooLong
  | QuotaExceeded
deriving DecidableEq

/-- A call to an external provider (embedding or LLM). -/
inductive ProviderCall where
  | embedCall (text : String)
  | generateCall (question : String)
deriving DecidableEq

/-- The quadruple the chat core returns on success (spec §6). -/
structure ChatCoreResult where
  answer_text : String
  ranked_sources : List StoredChunk
  tokens_used : Nat
deriving DecidableEq

/-- Modelled from the spec: the chat core is not in the repository snapshot.
Intake order per spec §2/§6: validate the question length against the cap,
then the ledger pre-check, then embed → similarity search → LLM generate.
The second component of the result is the list of provider calls made, in
order; both rejections happen before any provider call. -/
def handleChatMessage (cap limit used est : Nat)
    (dist : List ℚ → List ℚ → ℚ) (store : List StoredChunk)
    (embedFn : String → List ℚ)
    (genFn : String → List StoredChunk → String × Nat)
    (tenant_id : String) (question : String) :
    Except ChatErr ChatCoreResult × List ProviderCall :=
  if question.length > cap then (.error .QuestionTooLong, [])
  else
    match check_and_reserve limit used est with
    | (false, _) => (.error .QuotaExceeded, [])
    | (true, _) =>
      let qv := embedFn question
      let results := search dist store tenant_id qv 5
      let (answer, toks) := genFn question results
      (.ok ⟨answer, results, toks⟩, [.embedCall question, .generateCall question])

/-- A degenerate embedding provider for concrete witnesses. -/
def demoEmbed : String → List ℚ := fun _ => [0]

/-- A degenerate LLM provider for concrete witnesses. -/
def demoGen : String → List StoredChunk → String × Nat := fun _ _ => ("ok", 1)

/- ### 6. Frontend API client `apiFetch` (frontend/src/lib/api.ts) -/

/-- JSON values, for the parsed response bodies `apiFetch` handles. -/
inductive Json where
  | null
  | bool (b : Bool)
  | num (n : Int)
  | str (s : String)
  | arr (elems : List Json)
  | obj (fields : List (String × Json))

/-- JavaScript truthiness of a JSON value (`error.detail || ...`): `null`,
`false`, `0` and `""` are falsy; arrays and objects are always truthy. -/
def jsTruthy : Json → Bool
  | .null => false
  | .bool b => b
  | .num n => !(n == 0)
  | .str s => !(s == "")
  | .arr _ => true
  | .obj _ => true

mutual

/-- JavaScript string coercion `String(v)` of a JSON value, as applied by
`new Error(message)` to a non-string `detail`. -/
def jsToString : Json → String
  | .null => "null"
  | .bool b => cond b "true" "false"
  | .num n => toString n
  | .str s => s
  | .arr elems => String.intercalate "," (jsToStringList elems)
  | .obj _ => "[object Object]"

/-- `String(v)` element-wise on a JSON array. -/
def jsToStringList : List Json → List String
  | [] => []
  | j :: js => jsToString j :: jsToStringList js

end

/-- Result of a JavaScript property access `v.name`: a value (`some` a
field value, `none` for `undefined`), or a thrown `TypeError` when the
receiver is `null`. -/
inductive PropAccess where
  | value (v : Option Json)
  | typeError

/-- Property access `error.detail` on a parsed JSON value: a field of an
object (`JSON.parse` keeps the last duplicate key); `undefined` on
primitives and arrays (they auto-box or simply lack the field); and a
thrown `TypeError` on `null`, since `null.detail` throws in JavaScript. -/
def jsonField (name : String) : Json → PropAccess
  | .null => .typeError
  | .obj fields =>
    .value ((fields.filter (fun kv => kv.1 == name)).getLast?.map (fun kv => kv.2))
  | _ => .value none

/-- The parts of a `fetch` `Response` that `apiFetch` inspects: `ok`,
`status`, `statusText`, the `content-length` header, and the result of
`res.json()` (`none` when the body is not valid JSON, making `res.json()`
reject). -/
structure HttpResponse where
  ok : Bool
  status : Nat
  statusText : String
  contentLength : Option String
  jsonBody : Option Json

/-- What a call to `apiFetch` does with a given response.
`typeErrorThrown` is the `TypeError` raised by `error.detail` when the
parsed body is the JSON literal `null` — it escapes `apiFetch` uncaught
(the `.catch` only guards `res.json()`); its message is engine-defined and
not modelled. -/
inductive FetchOutcome where
  | success (body : Option Json)
  | thrown (message : String)
  | typeErrorThrown
  | parseRejected

/-- How the non-ok branch of `apiFetch` ends:
`const error = await res.json().catch(() => ({ detail: res.statusText }));`
`throw new Error(error.detail || \x60HTTP ${res.status}\x60)`.
When the body parses to `null`, `error.detail` itself throws a `TypeError`
before `new Error` is reached. -/
def errorOutcomeOf (res : HttpResponse) : FetchOutcome :=
  match res.jsonBody with
  | some j =>
    match jsonField "detail" j with
    | .typeError => .typeErrorThrown
    | .value (some d) =>
      if jsTruthy d then .thrown (jsToString d)
      else .thrown ("HTTP " ++ toString res.status)
    | .value none => .thrown ("HTTP " ++ toString res.status)
  | none =>
    if jsTruthy (.str res.statusText) then .thrown (jsToString (.str res.statusText))
    else .thrown ("HTTP " ++ toString res.status)

/-- `apiFetch` (frontend/src/lib/api.ts): throws for a non-ok response,
returns `undefined` for `204`/`content-length: 0`, otherwise returns the
parsed JSON body (`res.json()` rejecting when the body is not JSON). -/
def apiFetch (res : HttpResponse) : FetchOutcome :=
  if !res.ok then errorOutcomeOf res
  else if res.status = 204 ∨ res.contentLength = some "0" then .success none
  else
    match res.jsonBody with
    | some j => .success (some j)
    | none => .parseRejected

/- ### 7. Chat widget `ChatWindow` (frontend/src/components/chat/ChatWindow.tsx) -/

/-- Message role, from the `ChatMessage` interface. -/
inductive ChatRole where
  | user
  | assistant
deriving DecidableEq

/-- A chat transcript entry, from the `ChatMessage` interface. -/
structure ChatMessage where
  role : ChatRole
  content : String
deriving DecidableEq

/-- One entry of the ranked source list, from the `ChatResponse` interface. -/
structure SourceItem where
  chunk_id : String
  document_name : String
  content_preview : String
deriving DecidableEq

/-- The chat endpoint's response shape, embedded from the `ChatResponse`
interface of frontend/src/lib/api.ts: every field is mandatory there, so
every value of this type carries an answer, a conversation id, the ranked
source list and a token count. -/
structure ChatResponse where
  answer : String
  conversation_id : String
  sources : List SourceItem
  tokens_used : Nat
  estimated_cost_usd : ℚ
deriving DecidableEq

/-- The JSON body `handleSend` POSTs to `/chat/{tenantId}/message`. -/
structure SentRequest where
  question : String
  session_id : String
  conversation_id : Option String
deriving DecidableEq

/-- How one awaited `apiFetch` call in `handleSend` ends: a parsed
`ChatResponse`, or a caught throw (`some m` an `Error` with message `m` —
the only thing `apiFetch` throws — `none` any non-`Error` value). -/
inductive SendOutcome where
  | ok (res : ChatResponse)
  | errorThrown (e : Option String)
deriving DecidableEq

/-- The component state `handleSend` reads and writes: the `messages`,
`input`, `loading`, `error` state hooks and the `sessionIdRef` /
`conversationIdRef` refs. -/
structure ChatWindowState where
  messages : List ChatMessage
  input : String
  loading : Bool
  error : Option String
  conversationId : Option String
  sessionId : String
deriving DecidableEq

/-- JavaScript `String.prototype.trim` (the builtin `String.trim` is
modelled explicitly because it does not reduce in the kernel). -/
def jsTrim (s : String) : String :=
  ⟨(((s.data.dropWhile Char.isWhitespace).reverse).dropWhile Char.isWhitespace).reverse⟩

/-- `handleSend` of ChatWindow.tsx for one click/Enter, given how the
awaited `apiFetch` call ends.  Returns the new state and the request body
POSTed (`none` when the guard `if (!question || loading) return` fires and
no request is made).  `loading` is `true` only while a send is awaited, so
in this sequential model it is reset before the next send. -/
def handleSend (st : ChatWindowState) (outcome : SendOutcome) :
    ChatWindowState × Option SentRequest :=
  if jsTrim st.input = "" ∨ st.loading = true then (st, none)
  else
    let question := jsTrim st.input
    let st1 : ChatWindowState :=
      { st with input := "", error := none,
                messages := st.messages ++ [⟨.user, question⟩] }
    let req : SentRequest := ⟨question, st.sessionId, st.conversationId⟩
    match outcome with
    | .ok res =>
      ({ st1 with conversationId := some res.conversation_id,
                  messages := st1.messages ++ [⟨.assistant, res.answer⟩],
                  loading := false }, some req)
    | .errorThrown e =>
      let msg := e.getD "Wystąpił błąd"
      ({ st1 with error := some msg,
                  messages := st1.messages ++
                    [⟨.assistant, "Przepraszam, wystąpił błąd: " ++ msg⟩],
                  loading := false }, some req)

/-- One user send attempt: the text typed into the input box and how the
awaited call ends. -/
structure SendEvent where
  rawInput : String
  outcome : SendOutcome
deriving DecidableEq

/-- A whole widget session: `handleSend` run on each send attempt in turn,
collecting every request actually POSTed together with how it ended. -/
def runChat : ChatWindowState → List SendEvent → List (SentRequest × SendOutcome)
  | _, [] => []
  | st, e :: es =>
    match handleSend { st with input := e.rawInput } e.outcome with
    | (st', some req) => (req, e.outcome) :: runChat st' es
    | (st', none) => runChat st' es

/-- Folding step tracking the conversation id of the most recent successful
response seen so far. -/
def updConv (acc : Option String) (p : SentRequest × SendOutcome) : Option String :=
  match p.2 with
  | .ok r => some r.conversation_id
  | .errorThrown _ => acc

/-- The conversation id of the most recent successful response in a trace
(`none` when no request has succeeded yet). -/
def lastSuccessConv (trace : List (SentRequest × SendOutcome)) : Option String :=
  trace.foldl updConv none

/-- A freshly mounted widget state for concrete witnesses: empty
transcript, "hi" typed, not loading, no error, `conversationIdRef` null,
the mount-generated session id. -/
def demoChatState : ChatWindowState := ⟨[], "hi", false, none, none, "sid-123"⟩

/-- A concrete successful chat response for witnesses. -/
def demoChatResponse : ChatResponse :=
  ⟨"The answer.", "conv-1", [⟨"ch-1", "doc.pdf", "the passage"⟩], 42, 0⟩

/-- A two-send session for witnesses: a success then a failure. -/
def demoEvents : List SendEvent :=
  [⟨"q1", .ok demoChatResponse⟩, ⟨"q2", .errorThrown (some "boom")⟩]

theorem chunk_nil (size overlap : Nat) : chunk size overlap [] = [] := by
  rw [chunk.eq_def]
  simp

theorem chunk_one (size overlap : Nat) (s : List Char) (h1 : ¬ s.isEmpty = true)
    (h2 : s.length ≤ size ∨ size ≤ overlap) : chunk size overlap s = [s] := by
  rw [chunk.eq_def]
  simp [h1, h2]

theorem chunk_cons (size overlap : Nat) (s : List Char) (h2 : size < s.length)
    (h3 : overlap < size) :
    chunk size overlap s = s.take size :: chunk size overlap (s.drop (size - overlap)) := by
  rw [chunk.eq_def]
  have h1 : ¬ s.isEmpty = true := by
    simp only [List.isEmpty_iff]
    intro h
    subst h
    simp at h2
  rw [if_neg h1, if_neg (by omega : ¬ (s.length ≤ size ∨ size ≤ overlap))]

/-- The head of `chunk` on a non-empty text is always its first `size`
characters (the whole text in the single-chunk case). -/
theorem chunk_head (size overlap : Nat) (s : List Char) (hs : ¬ s.isEmpty = true)
    (h3 : overlap < size) :
    ∃ t, chunk size overlap s = s.take size :: t := by
  by_cases h : s.length ≤ size
  · refine ⟨[], ?_⟩
    rw [chunk_one size overlap s hs (Or.inl h), List.take_of_length_le h]
  · exact ⟨_, chunk_cons size overlap s (by omega) h3⟩

theorem chunk_ne_nil (size overlap : Nat) (s : List Char) (hs : ¬ s.isEmpty = true)
    (h3 : overlap < size) : chunk size overlap s ≠ [] := by
  obtain ⟨t, ht⟩ := chunk_head size overlap s hs h3
  simp [ht]

theorem chunk_reconstruct_aux (size overlap : Nat) (h : overlap < size) :
    ∀ (n : Nat) (s : List Char), s.length ≤ n →
      reconstruct overlap (chunk size overlap s) = s := by
  intro n
  induction n with
  | zero =>
    intro s hs
    have : s = [] := by
      cases s with
      | nil => rfl
      | cons a t => simp at hs
    subst this
    rw [chunk_nil]
    rfl
  | succ n ih =>
    intro s hs
    by_cases he : s.isEmpty = true
    · rw [List.isEmpty_iff] at he
      subst he
      rw [chunk_nil]
      rfl
    · by_cases hle : s.length ≤ size
      · rw [chunk_one size overlap s he (Or.inl hle)]
        simp [reconstruct]
      · rw [chunk_cons size overlap s (by omega) h]
        have hlen : s.length > size := by omega
        have hs' : ¬ (s.drop (size - overlap)).isEmpty = true := by
          simp only [List.isEmpty_iff, ← List.length_eq_zero]
          rw [List.length_drop]
          omega
        obtain ⟨t, ht⟩ := chunk_head size overlap (s.drop (size - overlap)) hs' h
        have hIH : reconstruct overlap (chunk size overlap (s.drop (size - overlap)))
            = s.drop (size - overlap) := by
          apply ih
          rw [List.length_drop]
          omega
        rw [ht] at hIH ⊢
        simp only [reconstruct, List.map_cons, List.flatten_cons] at hIH ⊢
        have e1 : s.take size
            = s.take (size - overlap) ++ (s.drop (size - overlap)).take overlap := by
          conv_lhs => rw [show size = (size - overlap) + overlap by omega, List.take_add]
        have e2 : (s.drop (size - overlap)).take overlap
              ++ ((s.drop (size - overlap)).take size).drop overlap
            = (s.drop (size - overlap)).take size := by
          conv_lhs =>
            rw [show (s.drop (size - overlap)).take overlap
                = ((s.drop (size - overlap)).take size).take overlap by
              rw [List.take_take, Nat.min_eq_left (Nat.le_of_lt h)]]
          exact List.take_append_drop _ _
        rw [e1, List.append_assoc,
          ← List.append_assoc ((s.drop (size - overlap)).take overlap), e2, hIH,
          List.take_append_drop]

theorem chunk_dropLast_aux (size overlap : Nat) (h : overlap < size) :
    ∀ (n : Nat) (s : List Char), s.length ≤ n →
      ∀ c ∈ (chunk size overlap s).dropLast, c.length = size := by
  intro n
  induction n with
  | zero =>
    intro s hs c hc
    have : s = [] := by
      cases s with
      | nil => rfl
      | cons a t => simp at hs
    subst this
    rw [chunk_nil] at hc
    simp at hc
  | succ n ih =>
    intro s hs c hc
    by_cases he : s.isEmpty = true
    · rw [List.isEmpty_iff] at he
      subst he
      rw [chunk_nil] at hc
      simp at hc
    · by_cases hle : s.length ≤ size
      · rw [chunk_one size overlap s he (Or.inl hle)] at hc
        simp at hc
      · rw [chunk_cons size overlap s (by omega) h] at hc
        have hs' : ¬ (s.drop (size - overlap)).isEmpty = true := by
          simp only [List.isEmpty_iff, ← List.length_eq_zero]
          rw [List.length_drop]
          omega
        rw [List.dropLast_cons_of_ne_nil
          (chunk_ne_nil size overlap _ hs' h)] at hc
        rcases List.mem_cons.mp hc with hc | hc
        · subst hc
          rw [List.length_take]
          omega
        · exact ih (s.drop (size - overlap)) (by rw [List.length_drop]; omega) c hc

theorem chunk_chain_aux (size overlap : Nat) (h : overlap < size) :
    ∀ (n : Nat) (s : List Char), s.length ≤ n →
      List.Chain' (fun a b => a.drop (a.length - overlap) = b.take overlap)
        (chunk size overlap s) := by
  intro n
  induction n with
  | zero =>
    intro s hs
    have : s = [] := by
      cases s with
      | nil => rfl
      | cons a t => simp at hs
    subst this
    rw [chunk_nil]
    exact List.chain'_nil
  | succ n ih =>
    intro s hs
    by_cases he : s.isEmpty = true
    · rw [List.isEmpty_iff] at he
      subst he
      rw [chunk_nil]
      exact List.chain'_nil
    · by_cases hle : s.length ≤ size
      · rw [chunk_one size overlap s he (Or.inl hle)]
        exact List.chain'_singleton s
      · rw [chunk_cons size overlap s (by omega) h]
        have hs' : ¬ (s.drop (size - overlap)).isEmpty = true := by
          simp only [List.isEmpty_iff, ← List.length_eq_zero]
          rw [List.length_drop]
          omega
        obtain ⟨t, ht⟩ := chunk_head size overlap (s.drop (size - overlap)) hs' h
        have hchain : List.Chain' (fun a b => a.drop (a.length - overlap) = b.take overlap)
            (chunk size overlap (s.drop (size - overlap))) :=
          ih _ (by rw [List.length_drop]; omega)
        rw [ht] at hchain ⊢
        rw [List.chain'_cons]
        refine ⟨?_, hchain⟩
        have hl : (s.take size).length = size := by
          rw [List.length_take]
          omega
        rw [hl, List.drop_take, List.take_take,
          Nat.min_eq_left (Nat.le_of_lt h),
          show size - (size - overlap) = overlap by omega]

/-- C3: for every document text D and parameters with `overlap < size` (the
deployed defaults are 800/150), concatenating the chunks of `chunk size
overlap D` in order, with the `overlap`-sized region shared with the
previous chunk removed from every chunk but the first, reconstructs D
exactly; `chunk` is a pure function and the reconstruction shows the chunks
are produced in document order. -/
theorem C3_chunk_roundtrip (size overlap : Nat) (h : overlap < size) (s : List Char) :
    reconstruct overlap (chunk size overlap s) = s :=
  chunk_reconstruct_aux size overlap h s.length s le_rfl

theorem C3_chunk_roundtrip_witness :
    150 < 800 ∧ reconstruct 150 (chunk 800 150 ['r','a','g']) = ['r','a','g'] :=
  ⟨by decide, C3_chunk_roundtrip 800 150 (by decide) ['r','a','g']⟩

/-- C4: for every text and parameters with `overlap < size`, every chunk
except the last is exactly `size` characters; each consecutive pair of
chunks shares an `overlap`-sized suffix/prefix region; a non-empty text
shorter than `size` yields exactly one chunk; and empty text yields exactly
zero chunks. -/
theorem C4_chunk_shape (size overlap : Nat) (h : overlap < size) (s : List Char) :
    (∀ c ∈ (chunk size overlap s).dropLast, c.length = size) ∧
    List.Chain' (fun a b => a.drop (a.length - overlap) = b.take overlap)
      (chunk size overlap s) ∧
    (s ≠ [] → s.length < size → chunk size overlap s = [s]) ∧
    chunk size overlap [] = [] := by
  refine ⟨chunk_dropLast_aux size overlap h s.length s le_rfl,
    chunk_chain_aux size overlap h s.length s le_rfl, ?_, chunk_nil size overlap⟩
  intro hne hlt
  exact chunk_one size overlap s
    (by simpa [List.isEmpty_iff] using hne) (Or.inl (Nat.le_of_lt hlt))

theorem C4_chunk_shape_witness :
    1 < 4 ∧
    ((∀ c ∈ (chunk 4 1 ['a','b','c','d','e','f']).dropLast, c.length = 4) ∧
    List.Chain' (fun a b => a.drop (a.length - 1) = b.take 1)
      (chunk 4 1 ['a','b','c','d','e','f']) ∧
    (['a','b','c','d','e','f'] ≠ ([] : List Char) →
      (['a','b','c','d','e','f'] : List Char).length < 4 →
      chunk 4 1 ['a','b','c','d','e','f'] = [['a','b','c','d','e','f']]) ∧
    chunk 4 1 [] = []) :=
  ⟨by decide, C4_chunk_shape 4 1 (by decide) ['a','b','c','d','e','f']⟩

/-- C1: every chunk returned by `search` for tenant T belongs to tenant T —
for every store contents (hence for any interleaving of concurrent
ingestion across tenants that produced the store), every query vector,
every k and every score function; the tenant filter is applied inside
`search` itself. -/
theorem C1_search_tenant_isolation (dist : List ℚ → List ℚ → ℚ)
    (store : List StoredChunk) (T : String) (q : List ℚ) (k : Nat) :
    ∀ c ∈ search dist store T q k, c.tenant_id = T := by
  intro c hc
  unfold search at hc
  have h1 := List.mem_of_mem_take hc
  have h2 := (List.perm_insertionSort _ _).mem_iff.mp h1
  have h3 := (List.mem_filter.mp h2).2
  simpa using h3

theorem C1_search_tenant_isolation_witness :
    ((⟨"tenant-A", "doc-1", 0, ['a'], [1]⟩ : StoredChunk)
      ∈ search demoDist demoStore "tenant-A" [0] 5) ∧
    (⟨"tenant-A", "doc-1", 0, ['a'], [1]⟩ : StoredChunk).tenant_id = "tenant-A" :=
  ⟨by decide,
    C1_search_tenant_isolation demoDist demoStore "tenant-A" [0] 5 _ (by decide)⟩

theorem runLedger_cons_pass (limit used est : Nat) (rest : List Nat)
    (h : used + est ≤ limit) :
    runLedger limit used (est :: rest)
      = ReserveResult.allowed :: runLedger limit (used + est) rest := by
  simp [runLedger, check_and_reserve, h]

theorem runLedger_cons_fail (limit used est : Nat) (rest : List Nat)
    (h : ¬ used + est ≤ limit) :
    runLedger limit used (est :: rest)
      = ReserveResult.quotaExceeded :: runLedger limit used rest := by
  simp [runLedger, check_and_reserve, h]

theorem runLedger_length (limit : Nat) :
    ∀ (l : List Nat) (used : Nat), (runLedger limit used l).length = l.length := by
  intro l
  induction l with
  | nil => intro used; rfl
  | cons est rest ih =>
    intro used
    by_cases h : used + est ≤ limit
    · rw [runLedger_cons_pass limit used est rest h]
      simp [ih]
    · rw [runLedger_cons_fail limit used est rest h]
      simp [ih]

theorem runLedger_count_allowed (limit t : Nat) (ht : 0 < t) :
    ∀ (n used : Nat),
      (runLedger limit used (List.replicate n t)).count ReserveResult.allowed
        = min n ((limit - used) / t) := by
  intro n
  induction n with
  | zero => intro used; simp [runLedger]
  | succ n ih =>
    intro used
    rw [List.replicate_succ]
    by_cases h : used + t ≤ limit
    · rw [runLedger_cons_pass limit used t _ h, List.count_cons_self, ih (used + t)]
      have hsub : limit - used - t = limit - (used + t) := by omega
      have hdiv : (limit - used) / t = (limit - (used + t)) / t + 1 := by
        rw [Nat.div_eq_sub_div ht (by omega : t ≤ limit - used), hsub]
      rw [hdiv]
      omega
    · rw [runLedger_cons_fail limit used t _ h,
        List.count_cons_of_ne (by decide :
          ReserveResult.allowed ≠ ReserveResult.quotaExceeded), ih used]
      have hz : (limit - used) / t = 0 := Nat.div_eq_of_lt (by omega)
      rw [hz]
      omega

theorem reserveResult_count_partition (rs : List ReserveResult) :
    rs.count ReserveResult.allowed + rs.count ReserveResult.quotaExceeded = rs.length := by
  induction rs with
  | nil => rfl
  | cons r rest ih =>
    cases r <;> simp [List.count_cons] <;> omega

/-- C2: with remaining quota for exactly M of N identical concurrent
requests (M < N), each executing `check_and_reserve` as one atomic
read-modify-write — so that any interleaving serializes to the sequential
run `runLedger` and no two requests can both pass a check only one should
pass — exactly M requests are allowed and the other N − M fail with
`QuotaExceeded`. -/
theorem C2_quota_race (limit used t N M : Nat) (ht : 0 < t)
    (hM : (limit - used) / t = M) (hMN : M < N) :
    (runLedger limit used (List.replicate N t)).count ReserveResult.allowed = M ∧
    (runLedger limit used (List.replicate N t)).count ReserveResult.quotaExceeded
      = N - M := by
  have hc := runLedger_count_allowed limit t ht N used
  rw [hM] at hc
  have hmin : min N M = M := by omega
  rw [hmin] at hc
  refine ⟨hc, ?_⟩
  have hp := reserveResult_count_partition (runLedger limit used (List.replicate N t))
  have hl := runLedger_length limit (List.replicate N t) used
  rw [List.length_replicate] at hl
  omega

theorem C2_quota_race_witness :
    (0 < 3 ∧ (10 - 0) / 3 = 3 ∧ 3 < 5) ∧
    ((runLedger 10 0 (List.replicate 5 3)).count ReserveResult.allowed = 3 ∧
     (runLedger 10 0 (List.replicate 5 3)).count ReserveResult.quotaExceeded = 5 - 3) :=
  ⟨by decide, C2_quota_race 10 0 3 5 3 (by decide) (by decide) (by decide)⟩

/-- C5: a document's status is always one of the four values pending,
processing, done, error (the type, from the frontend `Document` interface,
has exactly these inhabitants); the transitions the pipeline may take are
exactly pending→processing, processing→done, processing→error; done and
error have no outgoing transition (a document never moves out of them);
and any transition chain out of pending reaches processing first, so
processing is never skipped. -/
theorem C5_status_machine :
    (∀ s : DocumentStatus, s = .pending ∨ s = .processing ∨ s = .done ∨ s = .error) ∧
    (∀ a b : DocumentStatus, statusStep a b = true ↔
      (a = .pending ∧ b = .processing) ∨ (a = .processing ∧ b = .done) ∨
      (a = .processing ∧ b = .error)) ∧
    (∀ b : DocumentStatus, statusStep .done b = false ∧ statusStep .error b = false) ∧
    (∀ (b : DocumentStatus) (l : List DocumentStatus),
      List.Chain (fun x y => statusStep x y = true) .pending (b :: l) →
        b = .processing) := by
  refine ⟨by decide, by decide, by decide, ?_⟩
  intro b l hch
  cases hch with
  | cons hstep _ =>
    cases b
    · exact absurd hstep (by decide)
    · rfl
    · exact absurd hstep (by decide)
    · exact absurd hstep (by decide)

theorem C5_status_machine_witness :
    List.Chain (fun x y => statusStep x y = true) DocumentStatus.pending
      [DocumentStatus.processing] ∧
    DocumentStatus.processing = DocumentStatus.processing :=
  ⟨List.Chain.cons (by decide) List.Chain.nil,
    C5_status_machine.2.2.2 DocumentStatus.processing []
      (List.Chain.cons (by decide) List.Chain.nil)⟩

/-- C7: a chat question longer than the configured character cap is
rejected with `QuestionTooLong` and the provider-call log stays empty — no
embedding or LLM call is made, for every ledger state, store, provider pair
and tenant. -/
theorem C7_question_too_long (cap limit used est : Nat)
    (dist : List ℚ → List ℚ → ℚ) (store : List StoredChunk)
    (embedFn : String → List ℚ) (genFn : String → List StoredChunk → String × Nat)
    (tenant_id question : String) (hq : cap < question.length) :
    handleChatMessage cap limit used est dist store embedFn genFn tenant_id question
      = (.error .QuestionTooLong, []) := by
  unfold handleChatMessage
  rw [if_pos hq]

theorem C7_question_too_long_witness :
    5 < ("abcdefgh" : String).length ∧
    handleChatMessage 5 10 0 3 demoDist demoStore demoEmbed demoGen "tenant-A" "abcdefgh"
      = (.error .QuestionTooLong, []) :=
  ⟨by decide,
    C7_question_too_long 5 10 0 3 demoDist demoStore demoEmbed demoGen
      "tenant-A" "abcdefgh" (by decide)⟩

theorem handleSend_skip (st : ChatWindowState) (o : SendOutcome)
    (hb : jsTrim st.input = "" ∨ st.loading = true) :
    handleSend st o = (st, none) := by
  unfold handleSend
  rw [if_pos hb]

theorem handleSend_ok_eq (st : ChatWindowState) (r : ChatResponse)
    (hb : ¬ (jsTrim st.input = "" ∨ st.loading = true)) :
    handleSend st (.ok r)
      = (⟨(st.messages ++ [⟨.user, jsTrim st.input⟩]) ++ [⟨.assistant, r.answer⟩],
          "", false, none, some r.conversation_id, st.sessionId⟩,
         some ⟨jsTrim st.input, st.sessionId, st.conversationId⟩) := by
  unfold handleSend
  rw [if_neg hb]

theorem handleSend_err_eq (st : ChatWindowState) (e : Option String)
    (hb : ¬ (jsTrim st.input = "" ∨ st.loading = true)) :
    handleSend st (.errorThrown e)
      = (⟨(st.messages ++ [⟨.user, jsTrim st.input⟩])
            ++ [⟨.assistant, "Przepraszam, wystąpił błąd: " ++ e.getD "Wystąpił błąd"⟩],
          "", false, some (e.getD "Wystąpił błąd"), st.conversationId, st.sessionId⟩,
         some ⟨jsTrim st.input, st.sessionId, st.conversationId⟩) := by
  unfold handleSend
  rw [if_neg hb]

/-- C6: for every send whose guard passes (non-blank question, not already
loading) and whose awaited call succeeds with response `r`, the handler
consumes all four components: the state records `r.conversation_id`, the
transcript ends with an assistant message holding `r.answer`, the request
carrying (session_id, conversation_id, question) was POSTed, and `r` is
exactly its answer, conversation id, ranked source list and token count
(every field of the embedded `ChatResponse` interface is mandatory). -/
theorem C6_chat_response_complete (st : ChatWindowState) (r : ChatResponse)
    (hq : ¬ jsTrim st.input = "") (hl : st.loading = false) :
    (handleSend st (.ok r)).1.conversationId = some r.conversation_id ∧
    (handleSend st (.ok r)).1.messages.getLast? = some ⟨.assistant, r.answer⟩ ∧
    (handleSend st (.ok r)).2 = some ⟨jsTrim st.input, st.sessionId, st.conversationId⟩ ∧
    r = ⟨r.answer, r.conversation_id, r.sources, r.tokens_used, r.estimated_cost_usd⟩ := by
  have hb : ¬ (jsTrim st.input = "" ∨ st.loading = true) := by
    simp [hq, hl]
  rw [handleSend_ok_eq st r hb]
  exact ⟨rfl, List.getLast?_concat _, rfl, rfl⟩

theorem C6_chat_response_complete_witness :
    (¬ jsTrim demoChatState.input = "" ∧ demoChatState.loading = false) ∧
    ((handleSend demoChatState (.ok demoChatResponse)).1.conversationId
        = some demoChatResponse.conversation_id ∧
     (handleSend demoChatState (.ok demoChatResponse)).1.messages.getLast?
        = some ⟨.assistant, demoChatResponse.answer⟩ ∧
     (handleSend demoChatState (.ok demoChatResponse)).2
        = some ⟨jsTrim demoChatState.input, demoChatState.sessionId,
            demoChatState.conversationId⟩ ∧
     demoChatResponse = ⟨demoChatResponse.answer, demoChatResponse.conversation_id,
        demoChatResponse.sources, demoChatResponse.tokens_used,
        demoChatResponse.estimated_cost_usd⟩) :=
  ⟨⟨by decide, rfl⟩,
    C6_chat_response_complete demoChatState demoChatResponse (by decide) rfl⟩

/-- C8 as stated is false at a concrete input: the server returns 500 with
body `{"detail": "PROVIDER-STACK-TRACE"}`; `apiFetch` throws an `Error`
carrying that detail string, `handleSend` shows the user
"Przepraszam, wystąpił błąd: PROVIDER-STACK-TRACE" — the server's error
payload appears verbatim in the shown message, and the shown message
differs between failures, so it is not a fixed message. -/
theorem C8_counterexample :
    apiFetch ⟨false, 500, "Internal Server Error", none,
        some (.obj [("detail", .str "PROVIDER-STACK-TRACE")])⟩
      = .thrown "PROVIDER-STACK-TRACE" ∧
    (handleSend demoChatState
        (.errorThrown (some "PROVIDER-STACK-TRACE"))).1.messages.getLast?
      = some ⟨.assistant, "Przepraszam, wystąpił błąd: PROVIDER-STACK-TRACE"⟩ ∧
    (handleSend demoChatState
        (.errorThrown (some "PROVIDER-STACK-TRACE"))).1.messages.getLast?
      ≠ (handleSend demoChatState
        (.errorThrown (some "HTTP 500"))).1.messages.getLast? :=
  ⟨rfl, by decide, by decide⟩

/-- C8 (amended, as forced by the counterexample): on every chat-path
failure the user is shown a message with the fixed safe prefix
"Przepraszam, wystąpił błąd: " followed by the thrown error's message —
for HTTP failures the server-chosen `detail` string (or statusText /
"HTTP &lt;status&gt;" fallback) produced by `apiFetch` — and the fixed fallback
text "Wystąpił błąd" fills that slot for a non-`Error` throw; the raw
provider/server payload reaches the user only insofar as the server places
it in `detail`. -/
theorem C8_error_display (st : ChatWindowState) (e : Option String)
    (hq : ¬ jsTrim st.input = "") (hl : st.loading = false) :
    (handleSend st (.errorThrown e)).1.messages.getLast?
      = some ⟨.assistant, "Przepraszam, wystąpił błąd: " ++ e.getD "Wystąpił błąd"⟩ ∧
    (handleSend st (.errorThrown e)).1.error = some (e.getD "Wystąpił błąd") := by
  have hb : ¬ (jsTrim st.input = "" ∨ st.loading = true) := by
    simp [hq, hl]
  rw [handleSend_err_eq st e hb]
  exact ⟨List.getLast?_concat _, rfl⟩

theorem C8_error_display_witness :
    (¬ jsTrim demoChatState.input = "" ∧ demoChatState.loading = false) ∧
    ((handleSend demoChatState (.errorThrown (some "boom"))).1.messages.getLast?
        = some ⟨.assistant, "Przepraszam, wystąpił błąd: "
            ++ (some "boom").getD "Wystąpił błąd"⟩ ∧
     (handleSend demoChatState (.errorThrown (some "boom"))).1.error
        = some ((some "boom").getD "Wystąpił błąd")) :=
  ⟨⟨by decide, rfl⟩, C8_error_display demoChatState (some "boom") (by decide) rfl⟩

theorem handleSend_none (st : ChatWindowState) (o : SendOutcome)
    (st2 : ChatWindowState) (h : handleSend st o = (st2, none)) : st2 = st := by
  by_cases hb : jsTrim st.input = "" ∨ st.loading = true
  · rw [handleSend_skip st o hb] at h
    exact (Prod.mk.injEq _ _ _ _ ▸ h).1.symm
  · cases o with
    | ok r =>
      rw [handleSend_ok_eq st r hb] at h
      simp [Prod.ext_iff] at h
    | errorThrown e =>
      rw [handleSend_err_eq st e hb] at h
      simp [Prod.ext_iff] at h

theorem handleSend_emitted (st : ChatWindowState) (o : SendOutcome)
    (st2 : ChatWindowState) (req : SentRequest)
    (h : handleSend st o = (st2, some req)) :
    req = ⟨jsTrim st.input, st.sessionId, st.conversationId⟩ := by
  by_cases hb : jsTrim st.input = "" ∨ st.loading = true
  · rw [handleSend_skip st o hb] at h
    simp [Prod.ext_iff] at h
  · cases o with
    | ok r =>
      rw [handleSend_ok_eq st r hb] at h
      rw [Prod.ext_iff] at h
      exact (Option.some.injEq _ _ ▸ h.2).symm
    | errorThrown e =>
      rw [handleSend_err_eq st e hb] at h
      rw [Prod.ext_iff] at h
      exact (Option.some.injEq _ _ ▸ h.2).symm

theorem handleSend_emitted_conv (st : ChatWindowState) (o : SendOutcome)
    (st2 : ChatWindowState) (req : SentRequest)
    (h : handleSend st o = (st2, some req)) :
    st2.conversationId = updConv st.conversationId (req, o) := by
  by_cases hb : jsTrim st.input = "" ∨ st.loading = true
  · rw [handleSend_skip st o hb] at h
    simp [Prod.ext_iff] at h
  · cases o with
    | ok r =>
      rw [handleSend_ok_eq st r hb] at h
      injection h with h1 h2
      subst h1
      simp [updConv]
    | errorThrown e =>
      rw [handleSend_err_eq st e hb] at h
      injection h with h1 h2
      subst h1
      simp [updConv]

theorem handleSend_state_sessionId (st : ChatWindowState) (o : SendOutcome) :
    (handleSend st o).1.sessionId = st.sessionId := by
  by_cases hb : jsTrim st.input = "" ∨ st.loading = true
  · rw [handleSend_skip st o hb]
  · cases o with
    | ok r => rw [handleSend_ok_eq st r hb]
    | errorThrown e => rw [handleSend_err_eq st e hb]

theorem runChat_session_aux :
    ∀ (events : List SendEvent) (st : ChatWindowState),
      ∀ p ∈ runChat st events, p.1.session_id = st.sessionId := by
  intro events
  induction events with
  | nil =>
    intro st p hp
    simp [runChat] at hp
  | cons e es ih =>
    intro st p hp
    rcases hE : handleSend { st with input := e.rawInput } e.outcome with ⟨st2, req?⟩
    have hsid : st2.sessionId = st.sessionId := by
      have := handleSend_state_sessionId { st with input := e.rawInput } e.outcome
      rw [hE] at this
      exact this
    cases req? with
    | none =>
      have hrw : runChat st (e :: es) = runChat st2 es := by
        simp only [runChat, hE]
      rw [hrw] at hp
      rw [ih st2 p hp, hsid]
    | some req =>
      have hrw : runChat st (e :: es) = (req, e.outcome) :: runChat st2 es := by
        simp only [runChat, hE]
      rw [hrw] at hp
      rcases List.mem_cons.mp hp with hp | hp
      · subst hp
        rw [handleSend_emitted _ _ _ _ hE]
      · rw [ih st2 p hp, hsid]

theorem runChat_conv_aux :
    ∀ (events : List SendEvent) (st : ChatWindowState) (i : Nat)
      (p : SentRequest × SendOutcome), (runChat st events)[i]? = some p →
      p.1.conversation_id
        = List.foldl updConv st.conversationId ((runChat st events).take i) := by
  intro events
  induction events with
  | nil =>
    intro st i p hp
    simp [runChat] at hp
  | cons e es ih =>
    intro st i p hp
    rcases hE : handleSend { st with input := e.rawInput } e.outcome with ⟨st2, req?⟩
    cases req? with
    | none =>
      have hrw : runChat st (e :: es) = runChat st2 es := by
        simp only [runChat, hE]
      have hst2 : st2 = { st with input := e.rawInput } := handleSend_none _ _ _ hE
      rw [hrw] at hp ⊢
      have hcid : st2.conversationId = st.conversationId := by rw [hst2]
      rw [← hcid]
      exact ih st2 i p hp
    | some req =>
      have hrw : runChat st (e :: es) = (req, e.outcome) :: runChat st2 es := by
        simp only [runChat, hE]
      rw [hrw] at hp ⊢
      cases i with
      | zero =>
        rw [List.getElem?_cons_zero] at hp
        have hpe : p = (req, e.outcome) := by
          exact (Option.some.injEq _ _ ▸ hp).symm
        subst hpe
        rw [List.take_zero, List.foldl_nil,
          handleSend_emitted _ _ _ _ hE]
      | succ j =>
        rw [List.getElem?_cons_succ] at hp
        rw [List.take_succ_cons, List.foldl_cons,
          ← handleSend_emitted_conv _ _ _ _ hE]
        exact ih st2 j p hp

/-- C9: in one widget session every POSTed chat request carries the same
session id (the one generated once at mount and held in `sessionIdRef`),
and the request at position i carries exactly the conversation id of the
most recent successful response among the first i outcomes — in particular
the first request carries `conversation_id = null`
(`lastSuccessConv [] = none`), and a failed response leaves the threading
unchanged. -/
theorem C9_session_and_threading (st0 : ChatWindowState) (events : List SendEvent)
    (h0 : st0.conversationId = none) :
    (∀ p ∈ runChat st0 events, p.1.session_id = st0.sessionId) ∧
    (∀ (i : Nat) (p : SentRequest × SendOutcome),
      (runChat st0 events)[i]? = some p →
      p.1.conversation_id = lastSuccessConv ((runChat st0 events).take i)) := by
  refine ⟨runChat_session_aux events st0, ?_⟩
  intro i p hp
  have h := runChat_conv_aux events st0 i p hp
  rw [h0] at h
  exact h

theorem C9_session_and_threading_witness :
    (demoChatState.conversationId = none ∧
      (runChat demoChatState demoEvents)[1]?
        = some (⟨"q2", "sid-123", some "conv-1"⟩, .errorThrown (some "boom"))) ∧
    (SentRequest.mk "q2" "sid-123" (some "conv-1")).conversation_id
      = lastSuccessConv ((runChat demoChatState demoEvents).take 1) :=
  ⟨⟨rfl, by decide⟩,
    (C9_session_and_threading demoChatState demoEvents rfl).2 1
      (⟨"q2", "sid-123", some "conv-1"⟩, .errorThrown (some "boom")) (by decide)⟩

